import Mathlib

/-!
Verification of the layout-refresh core of `enaml/wx/wx_container.py`.

The development has two parts:

* a tree model of the widget hierarchy together with the breadth-first
  layout-table builder `_build_layout_table` and the constraint aggregator
  `_generate_constraints`;
* a state-machine model of the `WxContainer` class itself: ownership
  transfer, relayout, constraint replacement, size computation and the
  show/resize event handlers.

Constraint expressions are opaque to this code (they are produced by the
declaration objects and merely collected into lists), so they are modelled
by natural-number tags.
-/

namespace WxCont

/-- Opaque constraint expressions, identified by natural-number tags. -/
abbrev Cn := Nat

/-- The kind of a node in the widget tree: not a constraints widget at all,
a plain `WxConstraintsWidget`, or a `WxContainer` (which is itself a
constraints widget). -/
inductive Kind where
  | other
  | widget
  | container
deriving DecidableEq, Repr

/-- The declaration data of a widget relevant to constraint aggregation:
its hard constraints, its collected (user) constraints, and the
`share_layout` flag. -/
structure Decl where
  hard : List Cn
  collected : List Cn
  share_layout : Bool
deriving DecidableEq, Repr

/-- A widget-tree node: its kind, its declaration, its published size-hint
constraints, its contents (content-box) constraints, and its ordered
children. -/
inductive Node where
  | mk (kind : Kind) (decl : Decl) (size_hint_cns : List Cn)
      (contents_cns : List Cn) (children : List Node)

/-- The kind of a node. -/
def Node.kind : Node → Kind
  | .mk k _ _ _ _ => k

/-- The declaration of a node. -/
def Node.decl : Node → Decl
  | .mk _ d _ _ _ => d

/-- The published size-hint constraints of a node. -/
def Node.size_hint_cns : Node → List Cn
  | .mk _ _ s _ _ => s

/-- The contents constraints of a node. -/
def Node.contents_cns : Node → List Cn
  | .mk _ _ _ c _ => c

/-- The ordered children of a node. -/
def Node.children : Node → List Node
  | .mk _ _ _ _ cs => cs

/-- Whether the node is a `WxConstraintsWidget` (`isinstance` check in the
source). Containers are constraints widgets too. -/
def Node.isWidget (n : Node) : Bool :=
  n.kind ≠ Kind.other

/-- Whether the node is a `WxContainer` (`isinstance` check in the source). -/
def Node.isContainer (n : Node) : Bool :=
  n.kind = Kind.container

mutual

/-- Size of a node, used as a termination measure for the breadth-first
table builder. -/
def Node.msize : Node → Nat
  | .mk _ _ _ _ cs => 1 + Node.msizeList cs

/-- Total size of a list of nodes. -/
def Node.msizeList : List Node → Nat
  | [] => 0
  | c :: cs => Node.msize c + Node.msizeList cs

end

theorem Node.msize_eq (n : Node) : n.msize = 1 + Node.msizeList n.children := by
  cases n
  rfl

theorem Node.msize_pos (n : Node) : 0 < n.msize := by
  cases n
  simp [Node.msize]

/-- Total node size carried by a builder queue. -/
def qMeasure : List (Nat × Node) → Nat
  | [] => 0
  | (_, n) :: rest => Node.msize n + qMeasure rest

theorem qMeasure_append (l l' : List (Nat × Node)) :
    qMeasure (l ++ l') = qMeasure l + qMeasure l' := by
  induction l with
  | nil => simp [qMeasure]
  | cons h t ih =>
    obtain ⟨i, n⟩ := h
    simp [qMeasure, ih]
    omega

theorem qMeasure_map (k : Nat) (cs : List Node) :
    qMeasure (cs.map (fun c => (k, c))) = Node.msizeList cs := by
  induction cs with
  | nil => rfl
  | cons c cs ih => simp [qMeasure, Node.msizeList, ih]

/-- The remaining queue after one table entry has been produced for `item`:
if `item` is a container that transfers its layout ownership to the root
(`transfer_layout_ownership` succeeds exactly when `share_layout` holds),
its children are enqueued at the new running index. -/
def nextQueue (item : Node) (rest : List (Nat × Node)) (running' : Nat) :
    List (Nat × Node) :=
  if item.isContainer && item.decl.share_layout then
    rest ++ item.children.map (fun c => (running', c))
  else rest

theorem qMeasure_nextQueue (item : Node) (rest : List (Nat × Node)) (running' : Nat) :
    qMeasure (nextQueue item rest running') < Node.msize item + qMeasure rest := by
  rw [nextQueue]
  split
  · rw [qMeasure_append, qMeasure_map]
    have h := Node.msize_eq item
    omega
  · have h := Node.msize_pos item
    omega

/-- The breadth-first worker loop of `_build_layout_table`.  The queue holds
`(offset_index, item)` pairs; `running` is the running index (the number of
layout-table entries produced so far over the whole pass).  Returns the
offsets appended to the offset table and the layout-table entries produced
from this queue onward, in order.  A layout-table entry is modelled as the
`(offset_index, item)` pair (the geometry updater is identified with the
item it updates). -/
def buildAux : List (Nat × Node) → Nat → List (Int × Int) × List (Nat × Node)
  | [], _ => ([], [])
  | (off, item) :: rest, running =>
    if item.isWidget then
      let r := buildAux (nextQueue item rest (running + 1)) (running + 1)
      ((0, 0) :: r.1, (off, item) :: r.2)
    else
      buildAux rest running
termination_by q _ => qMeasure q
decreasing_by
  · have h := qMeasure_nextQueue item rest (running + 1)
    simp only [qMeasure]
    omega
  · have h := Node.msize_pos item
    simp only [qMeasure]
    omega

/-- The model of `WxContainer._build_layout_table`: seed the queue with the
container's children at offset index 0, run the worker loop, and prepend
the fixed `(0, 0)` entry to the offset table. -/
def build_layout_table (root : Node) : List (Int × Int) × List (Nat × Node) :=
  let r := buildAux (root.children.map (fun c => (0, c))) 0
  ((0, 0) :: r.1, r.2)

theorem buildAux_length (q : List (Nat × Node)) (running : Nat) :
    (buildAux q running).1.length = (buildAux q running).2.length := by
  induction q, running using buildAux.induct with
  | case1 running => simp [buildAux]
  | case2 off item rest running hw ih =>
    simp only [buildAux, hw, if_pos, List.length_cons, ih]
  | case3 off item rest running hw ih =>
    simp only [buildAux, hw]
    simpa using ih

theorem nextQueue_offset_le (item : Node) (rest : List (Nat × Node))
    (running : Nat) (hq : ∀ p ∈ rest, p.1 ≤ running) :
    ∀ p ∈ nextQueue item rest (running + 1), p.1 ≤ running + 1 := by
  intro p hp
  rw [nextQueue] at hp
  split at hp
  · rcases List.mem_append.1 hp with h1 | h2
    · exact Nat.le_trans (hq p h1) (Nat.le_succ _)
    · obtain ⟨c, _, rfl⟩ := List.mem_map.1 h2
      exact Nat.le_refl _
  · exact Nat.le_trans (hq p hp) (Nat.le_succ _)

theorem buildAux_cons_widget (off : Nat) (item : Node) (rest : List (Nat × Node))
    (running : Nat) (hw : item.isWidget = true) :
    buildAux ((off, item) :: rest) running =
      ((0, 0) :: (buildAux (nextQueue item rest (running + 1)) (running + 1)).1,
        (off, item) :: (buildAux (nextQueue item rest (running + 1)) (running + 1)).2) := by
  simp only [buildAux, hw, if_pos]

theorem buildAux_cons_skip (off : Nat) (item : Node) (rest : List (Nat × Node))
    (running : Nat) (hw : item.isWidget = false) :
    buildAux ((off, item) :: rest) running = buildAux rest running := by
  simp only [buildAux, hw]
  simp

theorem buildAux_offset_le : ∀ (q : List (Nat × Node)) (running : Nat),
    (∀ p ∈ q, p.1 ≤ running) →
    ∀ i (h : i < (buildAux q running).2.length),
      ((buildAux q running).2.get ⟨i, h⟩).1 ≤ running + i := by
  intro q running
  induction q, running using buildAux.induct with
  | case1 running =>
    intro _ i h
    simp [buildAux] at h
  | case2 off item rest running hw ih =>
    intro hq
    have hq0 : off ≤ running := hq (off, item) (List.mem_cons_self _ _)
    have hqr : ∀ p ∈ rest, p.1 ≤ running := fun p hp =>
      hq p (List.mem_cons_of_mem _ hp)
    have ih2 := ih (nextQueue_offset_le item rest running hqr)
    rw [buildAux_cons_widget off item rest running hw]
    intro i
    match i with
    | 0 =>
      intro h
      simpa using hq0
    | j + 1 =>
      intro h
      have hj : j < (buildAux (nextQueue item rest (running + 1)) (running + 1)).2.length := by
        simpa using h
      have h3 := ih2 j hj
      simp only [List.get_cons_succ]
      exact Nat.le_trans h3 (by omega)
  | case3 off item rest running hw ih =>
    intro hq
    rw [buildAux_cons_skip off item rest running (by simpa using hw)]
    exact ih (fun p hp => hq p (List.mem_cons_of_mem _ hp))

/-- C1: for every widget tree, after `_build_layout_table` returns, the
length of the returned offset table equals the length of the returned
layout table plus one, the extra slot being the fixed `(0, 0)` entry at
index 0. -/
theorem c1_offset_table_length (root : Node) :
    (build_layout_table root).1.length = (build_layout_table root).2.length + 1 := by
  simp [build_layout_table, buildAux_length]

/-- C2: every entry at position `i` (0-based) of the layout table produced
by `_build_layout_table` has an offset index strictly below `i + 1`, the
offset-table slot that the entry itself populates during the flat layout
pass, so no entry reads an offset-table slot not yet written in that pass. -/
theorem c2_no_forward_reference (root : Node) (i : Nat)
    (h : i < (build_layout_table root).2.length) :
    ((build_layout_table root).2.get ⟨i, h⟩).1 < i + 1 := by
  have hq : ∀ p ∈ root.children.map (fun c => (0, c)), p.1 ≤ 0 := by
    intro p hp
    obtain ⟨c, _, rfl⟩ := List.mem_map.1 hp
    exact Nat.le_refl _
  have h2 : i < (buildAux (root.children.map (fun c => (0, c))) 0).2.length := h
  have key := buildAux_offset_le (root.children.map (fun c => (0, c))) 0 hq i h2
  have heq : (build_layout_table root).2.get ⟨i, h⟩ =
      (buildAux (root.children.map (fun c => (0, c))) 0).2.get ⟨i, h2⟩ := rfl
  rw [heq]
  omega

/-- A concrete two-leaf tree used to witness the layout-table claims. -/
def c2tree : Node :=
  .mk .container ⟨[], [], true⟩ [] []
    [.mk .widget ⟨[], [], false⟩ [] [] [], .mk .widget ⟨[], [], false⟩ [] [] []]

theorem c2tree_table_len : 1 < (build_layout_table c2tree).2.length := by
  simp [build_layout_table, buildAux, nextQueue, c2tree, Node.children,
    Node.isWidget, Node.kind]

/-- Witness for C2 at a concrete two-leaf tree and position 1. -/
theorem c2_no_forward_reference_witness :
    ((build_layout_table c2tree).2.get ⟨1, c2tree_table_len⟩).1 < 1 + 1 :=
  c2_no_forward_reference c2tree 1 c2tree_table_len

/-- The constraints contributed by one layout-table item in the loop of
`_generate_constraints`: its hard constraints always; for a container,
either its collected constraints and contents constraints (when it
transfers ownership, i.e. `share_layout` holds) or its size-hint
constraints; for a plain constraints widget, its collected constraints and
its size-hint constraints. -/
def childCns (child : Node) : List Cn :=
  child.decl.hard ++
    (if child.isContainer then
      (if child.decl.share_layout then child.decl.collected ++ child.contents_cns
        else child.size_hint_cns)
      else child.decl.collected ++ child.size_hint_cns)

/-- The constraints contributed by the whole layout table, in order. -/
def tableCns : List (Nat × Node) → List Cn
  | [] => []
  | e :: es => childCns e.2 ++ tableCns es

/-- The model of `WxContainer._generate_constraints`: the container's own
contents constraints, its declaration's hard and collected constraints,
then the per-item contributions of the layout table. -/
def generate_constraints (self : Node) (layout_table : List (Nat × Node)) : List Cn :=
  self.contents_cns ++ self.decl.hard ++ self.decl.collected ++ tableCns layout_table

theorem tableCns_append (l l' : List (Nat × Node)) :
    tableCns (l ++ l') = tableCns l ++ tableCns l' := by
  induction l with
  | nil => rfl
  | cons e es ih => simp [tableCns, ih]

/-- A container child which does not transfer ownership, with a non-empty
set of collected constraints. -/
def c3child : Node := .mk .container ⟨[], [7], false⟩ [9] [] []

/-- A root container with no constraints of its own. -/
def c3root : Node := .mk .container ⟨[], [], true⟩ [] [] [c3child]

/-- Counterexample to C3: for a layout-table entry whose node is a
container that does not transfer ownership, `_generate_constraints` does
not add the declaration's collected constraints — here the collected
constraint `7` is absent from the generated list. -/
theorem c3_counterexample :
    c3child.isContainer = true ∧ c3child.decl.share_layout = false ∧
    c3child.decl.collected = [7] ∧
    7 ∉ generate_constraints c3root [(0, c3child)] := by
  decide

/-- C3 amended: for a layout-table entry whose node is a container, if the
node does not transfer ownership to the root its contribution is its hard
constraints followed by its published size-hint constraints only (the
declaration's collected constraints are not added); if it does transfer,
its contribution is its hard constraints, its collected constraints and
its contents constraints. -/
theorem c3_container_contribution (self : Node) (pre suf : List (Nat × Node))
    (i : Nat) (n : Node) (hc : n.isContainer = true) :
    (n.decl.share_layout = false →
      generate_constraints self (pre ++ (i, n) :: suf) =
        generate_constraints self pre ++ (n.decl.hard ++ n.size_hint_cns) ++ tableCns suf) ∧
    (n.decl.share_layout = true →
      generate_constraints self (pre ++ (i, n) :: suf) =
        generate_constraints self pre ++
          (n.decl.hard ++ n.decl.collected ++ n.contents_cns) ++ tableCns suf) := by
  constructor
  · intro hs
    simp [generate_constraints, tableCns_append, tableCns, childCns, hc, hs]
  · intro hs
    simp [generate_constraints, tableCns_append, tableCns, childCns, hc, hs]

/-- Witness for the amended C3 at the concrete non-transferring container. -/
theorem c3_container_contribution_witness :
    generate_constraints c3root ([] ++ (0, c3child) :: []) =
      generate_constraints c3root [] ++ (c3child.decl.hard ++ c3child.size_hint_cns) ++ tableCns [] :=
  (c3_container_contribution c3root [] [] 0 c3child (by decide)).1 (by decide)

/-- A wx size: a pair of integer dimensions, with -1 meaning "invalid"
(the `wxDefaultCoord` sentinel). -/
structure Size where
  w : Int
  h : Int
deriving DecidableEq, Repr

/-- wx.Size.IsFullySpecified: both components differ from -1. -/
def Size.isFullySpecified (s : Size) : Bool :=
  s.w ≠ -1 && s.h ≠ -1

/-- Casuarius strength names as used by the resist/hug settings of a
declaration. -/
inductive Strength where
  | ignore
  | weak
  | medium
  | strong
  | required
deriving DecidableEq, Repr

/-- Membership in the `('ignore', 'weak')` tuple tested by
`compute_min_size` and `compute_max_size`. -/
def Strength.isWeakOrIgnore : Strength → Bool
  | .ignore => true
  | .weak => true
  | _ => false

/-- The toolkit widget state visible to the container: the best size set
via `SetBestSize`, the min and max sizes set via `SetMinSize` and
`SetMaxSize`, and the size the superclass `DoGetBestSize` reports when the
stored best size is not fully specified. -/
structure WidgetS where
  best : Size
  minS : Size
  maxS : Size
  defaultBest : Size
deriving DecidableEq, Repr

/-- wxContainer.GetBestSize via DoGetBestSize: the stored best size when
fully specified, otherwise the superclass default. -/
def getBestSize (w : WidgetS) : Size :=
  if w.best.isFullySpecified then w.best else w.defaultBest

/-- The state of a `WxContainer`.  The layout manager is modelled from the
spec: `LayoutManager` (in `enaml.layout.layout_manager`, not under the
sources here) holds the unordered collection of constraints it was handed;
its size queries are answered by the environment.  The three counters
record the observable effects: invocations of the `_refresh` closure,
`size_hint_updated` notifications, and layout-manager size queries. -/
structure CState where
  owns_layout : Bool
  layout_owner : Option Nat
  layout_manager : Option (Multiset Cn)
  refresh_default : Bool
  offset_table : List (Int × Int)
  layout_table : List Nat
  is_shown : Bool
  size_hint_cns : List Cn
  widget : WidgetS
  refresh_count : Nat
  notify_count : Nat
  query_count : Nat
deriving DecidableEq

/-- The fixed surroundings of one container: its declaration's
`share_layout` flag and resist/hug strengths, whether its parent is a
container, the constraint collection and tables a rebuild would produce,
and the solver's answers to min/weak-min/max size queries as functions of
the manager's constraint collection.  The query functions are modelled
from the spec: the Layout Manager is an external collaborator exposing
`get_min_size` (at default or weak strength) and `get_max_size`. -/
structure Env where
  share_layout : Bool
  parent_is_container : Bool
  resist_width : Strength
  resist_height : Strength
  hug_width : Strength
  hug_height : Strength
  build_cns : Multiset Cn
  build_offsets : List (Int × Int)
  build_layout : List Nat
  min_size : Multiset Cn → Size
  weak_min_size : Multiset Cn → Size
  max_size : Multiset Cn → Size

/-- WxContainer.compute_min_size.  Returns the computed size together with
the number of layout-manager queries made. -/
def compute_min_size (st : CState) (env : Env) : Size × Nat :=
  if env.resist_width.isWeakOrIgnore && env.resist_height.isWeakOrIgnore then
    (⟨0, 0⟩, 0)
  else
    match st.owns_layout, st.layout_manager with
    | true, some m =>
      let s := env.min_size m
      (⟨if env.resist_width.isWeakOrIgnore then 0 else s.w,
        if env.resist_height.isWeakOrIgnore then 0 else s.h⟩, 1)
    | _, _ => (⟨-1, -1⟩, 0)

/-- WxContainer.compute_best_size: the manager's min size at the weak
strength whenever this container owns its layout and has a manager,
invalid otherwise.  Returns the size and the number of manager queries. -/
def compute_best_size (st : CState) (env : Env) : Size × Nat :=
  match st.owns_layout, st.layout_manager with
  | true, some m => (env.weak_min_size m, 1)
  | _, _ => (⟨-1, -1⟩, 0)

/-- WxContainer.compute_max_size.  Returns the size and the number of
manager queries. -/
def compute_max_size (st : CState) (env : Env) : Size × Nat :=
  if env.hug_width.isWeakOrIgnore && env.hug_height.isWeakOrIgnore then
    (⟨-1, -1⟩, 0)
  else
    match st.owns_layout, st.layout_manager with
    | true, some m =>
      let s := env.max_size m
      (⟨if s.w < 0 ∨ env.hug_width.isWeakOrIgnore then -1 else s.w,
        if s.h < 0 ∨ env.hug_height.isWeakOrIgnore then -1 else s.h⟩, 1)
    | _, _ => (⟨-1, -1⟩, 0)

/-- WxContainer._update_sizes: push the computed best/min/max sizes onto
the widget, accumulating the manager queries made. -/
def update_sizes (st : CState) (env : Env) : CState :=
  let b := compute_best_size st env
  let mn := compute_min_size st env
  let mx := compute_max_size st env
  { st with
    widget := { st.widget with best := b.1, minS := mn.1, maxS := mx.1 }
    query_count := st.query_count + b.2 + mn.2 + mx.2 }

/-- WxContainer.will_transfer: the declaration requests sharing and the
parent is itself a container. -/
def will_transfer (env : Env) : Bool :=
  env.share_layout && env.parent_is_container

/-- WxContainer.init_cns_layout: when a transfer is not anticipated, build
the tables and constraints, set up a fresh layout manager and refresh
closure, and update the widget sizes. -/
def init_cns_layout (st : CState) (env : Env) : CState :=
  if will_transfer env then st
  else
    update_sizes
      { st with
        layout_manager := some env.build_cns
        offset_table := env.build_offsets
        layout_table := env.build_layout
        refresh_default := false } env

/-- One invocation of the `_refresh` closure (counting the invocation is
all the claims need; the closure's geometry writes are not modelled). -/
def callRefresh (st : CState) : CState :=
  { st with refresh_count := st.refresh_count + 1 }

/-- WxContainer.on_resized: invoke the refresh closure only while shown. -/
def on_resized (st : CState) : CState :=
  if st.is_shown then callRefresh st else st

/-- WxContainer.on_shown: record the shown flag from the event and refresh
when it is set. -/
def on_shown (st : CState) (sh : Bool) : CState :=
  if sh then callRefresh { st with is_shown := sh }
  else { st with is_shown := sh }

/-- WxContainer.relayout.  For an owner: remember the widget's reported
best size, rebuild via `init_cns_layout`, refresh if shown, and call
`size_hint_updated` exactly when the reported best size changed or the
size-hint constraint list is empty.  For a delegate the call is forwarded
to the owner, leaving this container's state unchanged. -/
def relayout (st : CState) (env : Env) : CState :=
  if st.owns_layout then
    let old_hint := getBestSize st.widget
    let st1 := init_cns_layout st env
    let st2 := if st1.is_shown then callRefresh st1 else st1
    let new_hint := getBestSize st2.widget
    if old_hint ≠ new_hint ∨ st2.size_hint_cns = [] then
      { st2 with notify_count := st2.notify_count + 1 }
    else st2
  else st

/-- WxContainer.replace_constraints.  For an owner with a live manager:
inside a size-hint guard, ask the manager to drop the old constraints and
add the new ones, update the widget sizes, and refresh if shown; the guard
publishes one size-hint notification on exit when the reported best size
changed across the block (the guard is modelled from the spec: a scoped
size-hint-stable guard that suppresses mid-replacement notifications and
publishes at most one on exit; `size_hint_guard` lives in
`wx_constraints_widget`, not under the sources here).  For an owner
without a manager nothing happens; a delegate forwards to its owner. -/
def replace_constraints (old_cns new_cns : List Cn) (st : CState) (env : Env) : CState :=
  if st.owns_layout then
    match st.layout_manager with
    | some m =>
      let hint0 := getBestSize st.widget
      let st1 := { st with layout_manager := some (m - ↑old_cns + ↑new_cns) }
      let st2 := update_sizes st1 env
      let st3 := if st2.is_shown then callRefresh st2 else st2
      if getBestSize st3.widget ≠ hint0 then
        { st3 with notify_count := st3.notify_count + 1 }
      else st3
    | none => st
  else st

/-- WxContainer.clear_constraints: for an owner with a live manager, ask
the manager to drop the constraints with no replacement; no size update
and no refresh.  For an owner without a manager nothing happens; a
delegate forwards to its owner. -/
def clear_constraints (cns : List Cn) (st : CState) (_env : Env) : CState :=
  if st.owns_layout then
    match st.layout_manager with
    | some m => { st with layout_manager := some (m - ↑cns) }
    | none => st
  else st

/-- WxContainer.transfer_layout_ownership: refuse (returning the state
unchanged) when the declaration forbids sharing; otherwise flip to the
delegate state, record the owner, and reset the layout manager, the
refresh closure, the offset table and the layout table to their defaults. -/
def transfer_layout_ownership (st : CState) (env : Env) (owner : Nat) : Bool × CState :=
  if !env.share_layout then (false, st)
  else
    (true,
      { st with
        owns_layout := false
        layout_owner := some owner
        layout_manager := none
        refresh_default := true
        offset_table := []
        layout_table := [] })

theorem callRefresh_widget (st : CState) : (callRefresh st).widget = st.widget := rfl

theorem callRefresh_owns (st : CState) :
    (callRefresh st).owns_layout = st.owns_layout := rfl

theorem update_sizes_owns (st : CState) (env : Env) :
    (update_sizes st env).owns_layout = st.owns_layout := rfl

theorem update_sizes_manager (st : CState) (env : Env) :
    (update_sizes st env).layout_manager = st.layout_manager := rfl

theorem init_cns_layout_owns (st : CState) (env : Env) :
    (init_cns_layout st env).owns_layout = st.owns_layout := by
  unfold init_cns_layout
  split <;> rfl

theorem init_cns_layout_notify (st : CState) (env : Env) :
    (init_cns_layout st env).notify_count = st.notify_count := by
  unfold init_cns_layout
  split <;> rfl

theorem init_cns_layout_hint_cns (st : CState) (env : Env) :
    (init_cns_layout st env).size_hint_cns = st.size_hint_cns := by
  unfold init_cns_layout
  split <;> rfl

/-- A widget state with nothing published yet. -/
def wDemo : WidgetS := ⟨⟨-1, -1⟩, ⟨-1, -1⟩, ⟨-1, -1⟩, ⟨8, 8⟩⟩

/-- The post-construction default state of a container: the atom defaults
for the layout fields (layout owned, no owner reference, no manager,
default refresh closure, empty tables) with the given widget data, shown
flag and size-hint constraints, and zeroed effect counters. -/
def defaultState (w : WidgetS) (sh : Bool) (cns : List Cn) : CState :=
  { owns_layout := true, layout_owner := none, layout_manager := none,
    refresh_default := true, offset_table := [], layout_table := [],
    is_shown := sh, size_hint_cns := cns, widget := w,
    refresh_count := 0, notify_count := 0, query_count := 0 }

/-- An environment whose declaration forbids sharing. -/
def envNoShare : Env :=
  { share_layout := false, parent_is_container := false,
    resist_width := .medium, resist_height := .medium,
    hug_width := .medium, hug_height := .medium,
    build_cns := 0, build_offsets := [], build_layout := [],
    min_size := fun _ => ⟨1, 1⟩, weak_min_size := fun _ => ⟨1, 1⟩,
    max_size := fun _ => ⟨1, 1⟩ }

/-- C6: transfer_layout_ownership returns false and leaves the container's
state entirely unchanged when the declaration forbids sharing; otherwise
it returns true, clears the ownership flag, records the owner reference,
and resets the layout manager, the refresh closure, the offset table and
the layout table. -/
theorem c6_transfer_ownership (st : CState) (env : Env) (owner : Nat) :
    (env.share_layout = false → transfer_layout_ownership st env owner = (false, st)) ∧
    (env.share_layout = true →
      transfer_layout_ownership st env owner =
        (true, { st with
                  owns_layout := false
                  layout_owner := some owner
                  layout_manager := none
                  refresh_default := true
                  offset_table := []
                  layout_table := [] })) := by
  constructor <;> intro hs <;> simp [transfer_layout_ownership, hs]

/-- Witness for C6: a transfer request against a sharing-forbidding
declaration returns false and changes nothing. -/
theorem c6_transfer_ownership_witness :
    transfer_layout_ownership (defaultState wDemo true []) envNoShare 5 =
      (false, defaultState wDemo true []) :=
  (c6_transfer_ownership (defaultState wDemo true []) envNoShare 5).1 rfl

/-- C8: while the container is not shown, a resize event leaves the state,
and in particular the refresh-invocation count, unchanged; a show event
with the shown flag set triggers exactly one refresh invocation. -/
theorem c8_hidden_resize_shown_refresh (st : CState) :
    (st.is_shown = false → on_resized st = st) ∧
    (on_shown st true).refresh_count = st.refresh_count + 1 ∧
    (on_shown st true).is_shown = true := by
  refine ⟨fun h => ?_, ?_, ?_⟩
  · simp [on_resized, h]
  · simp [on_shown, callRefresh]
  · simp [on_shown, callRefresh]

/-- Witness for C8: a resize delivered to a hidden container is a no-op. -/
theorem c8_hidden_resize_shown_refresh_witness :
    on_resized (defaultState wDemo false []) = defaultState wDemo false [] :=
  (c8_hidden_resize_shown_refresh (defaultState wDemo false [])).1 rfl

/-- C10: an owner whose layout manager is absent performs nothing at all
in replace_constraints and clear_constraints: the state, including every
effect counter, is unchanged. -/
theorem c10_no_manager_noop (st : CState) (env : Env) (a b c : List Cn)
    (h1 : st.owns_layout = true) (h2 : st.layout_manager = none) :
    replace_constraints a b st env = st ∧ clear_constraints c st env = st := by
  constructor
  · simp [replace_constraints, h1, h2]
  · simp [clear_constraints, h1, h2]

/-- Witness for C10 at the default owner state, which holds no manager. -/
theorem c10_no_manager_noop_witness :
    replace_constraints [1] [2] (defaultState wDemo true []) envNoShare =
        defaultState wDemo true [] ∧
      clear_constraints [3] (defaultState wDemo true []) envNoShare =
        defaultState wDemo true [] :=
  c10_no_manager_noop (defaultState wDemo true []) envNoShare [1] [2] [3] rfl rfl

/-- An environment with weak resist strengths on both axes whose solver
answers a non-zero weak-strength min size. -/
def c5env : Env :=
  { share_layout := false, parent_is_container := false,
    resist_width := .weak, resist_height := .weak,
    hug_width := .medium, hug_height := .medium,
    build_cns := {3}, build_offsets := [], build_layout := [],
    min_size := fun _ => ⟨5, 5⟩, weak_min_size := fun _ => ⟨4, 4⟩,
    max_size := fun _ => ⟨9, 9⟩ }

/-- An owner state holding a live manager. -/
def c5st : CState := { defaultState wDemo true [] with layout_manager := some {3} }

/-- Counterexample to C5: with weak resistance on both axes, the best-size
computation of an owner with a live manager still makes one layout-manager
query and returns the manager's weak-strength answer, not the zero-size
sentinel. -/
theorem c5_counterexample :
    c5env.resist_width.isWeakOrIgnore = true ∧
    c5env.resist_height.isWeakOrIgnore = true ∧
    c5st.owns_layout = true ∧ c5st.layout_manager ≠ none ∧
    (compute_best_size c5st c5env).2 = 1 ∧
    (compute_best_size c5st c5env).1 ≠ ⟨0, 0⟩ := by
  decide

/-- C5 amended: it is the minimum-size computation that returns the
zero-size sentinel with no layout-manager query when both resistances are
weak or ignore; the best-size computation makes exactly one manager query
(the weak-strength min size) whenever the container owns its layout and
holds a manager, regardless of the resistance settings. -/
theorem c5_weak_resistance_sizes (st : CState) (env : Env)
    (hw : env.resist_width.isWeakOrIgnore = true)
    (hh : env.resist_height.isWeakOrIgnore = true) :
    compute_min_size st env = (⟨0, 0⟩, 0) ∧
    (∀ m, st.owns_layout = true → st.layout_manager = some m →
      compute_best_size st env = (env.weak_min_size m, 1)) := by
  constructor
  · simp [compute_min_size, hw, hh]
  · intro m h1 h2
    simp [compute_best_size, h1, h2]

/-- Witness for the amended C5 at the concrete weak-resistance owner. -/
theorem c5_weak_resistance_sizes_witness :
    compute_min_size c5st c5env = (⟨0, 0⟩, 0) ∧
    compute_best_size c5st c5env = (c5env.weak_min_size {3}, 1) :=
  ⟨(c5_weak_resistance_sizes c5st c5env rfl rfl).1,
    (c5_weak_resistance_sizes c5st c5env rfl rfl).2 {3} rfl rfl⟩

theorem callRefresh_notify (st : CState) :
    (callRefresh st).notify_count = st.notify_count := rfl

theorem callRefresh_hint_cns (st : CState) :
    (callRefresh st).size_hint_cns = st.size_hint_cns := rfl

/-- An environment under which a rebuild changes the solved minimum size
but not the weak-strength (best) size. -/
def c4env : Env :=
  { share_layout := false, parent_is_container := false,
    resist_width := .medium, resist_height := .medium,
    hug_width := .medium, hug_height := .medium,
    build_cns := {2}, build_offsets := [], build_layout := [],
    min_size := fun _ => ⟨6, 6⟩, weak_min_size := fun _ => ⟨10, 10⟩,
    max_size := fun _ => ⟨20, 20⟩ }

/-- An owner whose widget already reports best size (10, 10) and min size
(5, 5) and whose size-hint constraint set is non-empty. -/
def c4st : CState :=
  { owns_layout := true, layout_owner := none, layout_manager := some 0,
    refresh_default := false, offset_table := [], layout_table := [],
    is_shown := true, size_hint_cns := [1],
    widget := ⟨⟨10, 10⟩, ⟨5, 5⟩, ⟨20, 20⟩, ⟨-1, -1⟩⟩,
    refresh_count := 0, notify_count := 0, query_count := 0 }

/-- Counterexample to C4: a relayout on an owner across which the minimum
size changes while the reported best size does not, with a non-empty
size-hint constraint set, publishes no notification, although the claim
requires one for a min-size change. -/
theorem c4_counterexample :
    (relayout c4st c4env).notify_count = c4st.notify_count ∧
    (relayout c4st c4env).widget.minS ≠ c4st.widget.minS ∧
    c4st.size_hint_cns ≠ [] := by
  decide

/-- C4 amended: for an owner, relayout publishes a size-hint notification
exactly when the widget-reported best size changed across the rebuild or
the size-hint constraint list is empty; a change of min or max size alone
publishes nothing. -/
theorem c4_relayout_notification (st : CState) (env : Env)
    (h : st.owns_layout = true) :
    ((relayout st env).notify_count = st.notify_count + 1 ∨
      (relayout st env).notify_count = st.notify_count) ∧
    ((relayout st env).notify_count = st.notify_count + 1 ↔
      (getBestSize st.widget ≠ getBestSize (init_cns_layout st env).widget ∨
        st.size_hint_cns = [])) := by
  set st1 := init_cns_layout st env with hst1
  set st2 := (if st1.is_shown then callRefresh st1 else st1) with hst2
  have e1 : relayout st env =
      (if getBestSize st.widget ≠ getBestSize st2.widget ∨ st2.size_hint_cns = [] then
        { st2 with notify_count := st2.notify_count + 1 } else st2) := by
    unfold relayout
    rw [h]
    rfl
  have w2 : st2.widget = st1.widget := by
    rw [hst2]
    split <;> rfl
  have n2 : st2.notify_count = st.notify_count := by
    rw [hst2]
    split
    · rw [callRefresh_notify, hst1, init_cns_layout_notify]
    · rw [hst1, init_cns_layout_notify]
  have c2 : st2.size_hint_cns = st.size_hint_cns := by
    rw [hst2]
    split
    · rw [callRefresh_hint_cns, hst1, init_cns_layout_hint_cns]
    · rw [hst1, init_cns_layout_hint_cns]
  rw [e1]
  by_cases hcond : getBestSize st.widget ≠ getBestSize st2.widget ∨ st2.size_hint_cns = []
  · rw [if_pos hcond]
    have hcnt : ({ st2 with notify_count := st2.notify_count + 1 } : CState).notify_count
        = st.notify_count + 1 := by
      rw [← n2]
    refine ⟨Or.inl hcnt, ?_, fun _ => hcnt⟩
    intro _
    rcases hcond with hne | hemp
    · exact Or.inl (by rw [← w2]; exact hne)
    · exact Or.inr (by rw [← c2]; exact hemp)
  · rw [if_neg hcond]
    refine ⟨Or.inr n2, ?_, ?_⟩
    · intro hcnt
      rw [n2] at hcnt
      omega
    · intro hrhs
      exfalso
      apply hcond
      rcases hrhs with hne | hemp
      · exact Or.inl (by rw [w2]; exact hne)
      · exact Or.inr (by rw [c2]; exact hemp)

/-- Witness for the amended C4 at the concrete owner: the best size is
unchanged and the size-hint constraints are non-empty, so exactly no
notification is published. -/
theorem c4_relayout_notification_witness :
    (relayout c4st c4env).notify_count = c4st.notify_count + 1 ↔
      (getBestSize c4st.widget ≠ getBestSize (init_cns_layout c4st c4env).widget ∨
        c4st.size_hint_cns = []) :=
  (c4_relayout_notification c4st c4env rfl).2

theorem replace_constraints_manager (a b : List Cn) (st : CState) (env : Env)
    (h : st.owns_layout = true) (m : Multiset Cn) (hm : st.layout_manager = some m) :
    (replace_constraints a b st env).layout_manager = some (m - ↑a + ↑b) ∧
    (replace_constraints a b st env).owns_layout = true := by
  unfold replace_constraints
  rw [h, hm]
  constructor
  · simp only [if_pos]
    split <;> split <;> rfl
  · simp only [if_pos]
    split <;> split <;> rfl

/-- C9: for an owner, replace_constraints with an empty removal set
followed by clear_constraints of the same constraint set restores the
layout manager's constraint collection to what it was before the replace. -/
theorem c9_replace_clear_roundtrip (st : CState) (env : Env) (cns : List Cn)
    (h : st.owns_layout = true) :
    (clear_constraints cns (replace_constraints [] cns st env) env).layout_manager =
      st.layout_manager := by
  cases hm : st.layout_manager with
  | none =>
    have e : replace_constraints [] cns st env = st := by
      simp [replace_constraints, h, hm]
    rw [e]
    simp [clear_constraints, h, hm]
  | some m =>
    obtain ⟨h1, h2⟩ := replace_constraints_manager [] cns st env h m hm
    simp [clear_constraints, h1, h2]

/-- An owner state holding a manager loaded with the constraints 4 and 5. -/
def c9st : CState := { defaultState wDemo true [] with layout_manager := some {4, 5} }

/-- Witness for C9: adding then clearing the constraint 6 restores the
manager holding 4 and 5. -/
theorem c9_replace_clear_roundtrip_witness :
    (clear_constraints [6] (replace_constraints [] [6] c9st envNoShare) envNoShare).layout_manager =
      c9st.layout_manager :=
  c9_replace_clear_roundtrip c9st envNoShare [6] rfl

theorem relayout_delegate (st : CState) (env : Env) (h : st.owns_layout = false) :
    relayout st env = st := by
  unfold relayout
  rw [h]
  rfl

theorem replace_constraints_delegate (a b : List Cn) (st : CState) (env : Env)
    (h : st.owns_layout = false) : replace_constraints a b st env = st := by
  unfold replace_constraints
  rw [h]
  rfl

theorem clear_constraints_delegate (c : List Cn) (st : CState) (env : Env)
    (h : st.owns_layout = false) : clear_constraints c st env = st := by
  unfold clear_constraints
  rw [h]
  rfl

theorem init_cns_layout_anticipated (st : CState) (env : Env)
    (h : will_transfer env = true) : init_cns_layout st env = st := by
  simp [init_cns_layout, h]

theorem transfer_no_share (st : CState) (env : Env) (o : Nat)
    (h : env.share_layout = false) :
    transfer_layout_ownership st env o = (false, st) := by
  simp [transfer_layout_ownership, h]

theorem relayout_owns (st : CState) (env : Env) :
    (relayout st env).owns_layout = st.owns_layout := by
  cases h : st.owns_layout with
  | false =>
    rw [relayout_delegate st env h]
    exact h
  | true =>
    set st1 := init_cns_layout st env with hst1
    set st2 := (if st1.is_shown then callRefresh st1 else st1) with hst2
    have e1 : relayout st env =
        (if getBestSize st.widget ≠ getBestSize st2.widget ∨ st2.size_hint_cns = [] then
          { st2 with notify_count := st2.notify_count + 1 } else st2) := by
      unfold relayout
      rw [h]
      rfl
    have o2 : st2.owns_layout = true := by
      rw [hst2]
      split
      · rw [callRefresh_owns, hst1, init_cns_layout_owns, h]
      · rw [hst1, init_cns_layout_owns, h]
    rw [e1]
    split
    · exact o2
    · exact o2

theorem replace_constraints_owns (a b : List Cn) (st : CState) (env : Env) :
    (replace_constraints a b st env).owns_layout = st.owns_layout := by
  cases h : st.owns_layout with
  | false =>
    rw [replace_constraints_delegate _ _ _ _ h]
    exact h
  | true =>
    cases hm : st.layout_manager with
    | none =>
      have e : replace_constraints a b st env = st := by
        simp [replace_constraints, h, hm]
      rw [e, h]
    | some m =>
      rw [(replace_constraints_manager a b st env h m hm).2]

theorem clear_constraints_owns (c : List Cn) (st : CState) (env : Env) :
    (clear_constraints c st env).owns_layout = st.owns_layout := by
  cases h : st.owns_layout with
  | false =>
    rw [clear_constraints_delegate _ _ _ h]
    exact h
  | true =>
    cases hm : st.layout_manager with
    | none =>
      have e : clear_constraints c st env = st := by
        simp [clear_constraints, h, hm]
      rw [e, h]
    | some m =>
      have e : clear_constraints c st env = { st with layout_manager := some (m - ↑c) } := by
        simp [clear_constraints, h, hm]
      rw [e, h]

/-- The states of one container reachable through its public layout
operations.  The container starts in the post-construction default state
(layout owned, no manager, empty tables) with arbitrary widget data,
shown flag and size-hint constraints.  A transfer request is only ever
issued by the table-building pass of a container on items whose tree
parent is itself a container (the queue of `_build_layout_table` holds
children of the builder itself or children of transferring containers),
so the transfer step records that structural fact about the environment. -/
inductive Reach (env : Env) : CState → Prop where
  | start (w : WidgetS) (sh : Bool) (cns : List Cn) :
      Reach env (defaultState w sh cns)
  | initCnsStep {st : CState} : Reach env st → Reach env (init_cns_layout st env)
  | relayoutStep {st : CState} : Reach env st → Reach env (relayout st env)
  | replaceStep {st : CState} (a b : List Cn) :
      Reach env st → Reach env (replace_constraints a b st env)
  | clearStep {st : CState} (c : List Cn) :
      Reach env st → Reach env (clear_constraints c st env)
  | transferStep {st : CState} (o : Nat)
      (hp : env.parent_is_container = true) :
      Reach env st → Reach env (transfer_layout_ownership st env o).2

theorem reach_invariant {env : Env} {st : CState} (hr : Reach env st) :
    st.owns_layout = false →
      st.layout_manager = none ∧ env.share_layout = true ∧
        env.parent_is_container = true := by
  induction hr with
  | start w sh cns =>
    intro hd
    exact absurd hd (by simp [defaultState])
  | initCnsStep hr ih =>
    intro hd
    rw [init_cns_layout_owns] at hd
    obtain ⟨hm, hs, hp⟩ := ih hd
    have hw : will_transfer env = true := by simp [will_transfer, hs, hp]
    rw [init_cns_layout_anticipated _ _ hw]
    exact ⟨hm, hs, hp⟩
  | relayoutStep hr ih =>
    intro hd
    rw [relayout_owns] at hd
    obtain ⟨hm, hs, hp⟩ := ih hd
    rw [relayout_delegate _ _ hd]
    exact ⟨hm, hs, hp⟩
  | replaceStep a b hr ih =>
    intro hd
    rw [replace_constraints_owns] at hd
    obtain ⟨hm, hs, hp⟩ := ih hd
    rw [replace_constraints_delegate _ _ _ _ hd]
    exact ⟨hm, hs, hp⟩
  | clearStep c hr ih =>
    intro hd
    rw [clear_constraints_owns] at hd
    obtain ⟨hm, hs, hp⟩ := ih hd
    rw [clear_constraints_delegate _ _ _ hd]
    exact ⟨hm, hs, hp⟩
  | transferStep o hp hr ih =>
    intro hd
    by_cases hs : env.share_layout = true
    · simp [transfer_layout_ownership, hs]
      exact hp
    · have hs' : env.share_layout = false := by
        cases henv : env.share_layout
        · rfl
        · exact absurd henv hs
      rw [transfer_no_share _ _ _ hs'] at hd
      obtain ⟨hm, hs2, hp2⟩ := ih hd
      exact absurd hs2 hs

/-- C7: in every state reachable through the public layout operations, a
container in the delegate state (owns_layout false) holds no live layout
manager. -/
theorem c7_delegate_no_manager {env : Env} {st : CState}
    (hr : Reach env st) (hd : st.owns_layout = false) :
    st.layout_manager = none :=
  (reach_invariant hr hd).1

/-- An environment whose declaration shares layout and whose parent is a
container. -/
def c7env : Env :=
  { share_layout := true, parent_is_container := true,
    resist_width := .medium, resist_height := .medium,
    hug_width := .medium, hug_height := .medium,
    build_cns := 0, build_offsets := [], build_layout := [],
    min_size := fun _ => ⟨1, 1⟩, weak_min_size := fun _ => ⟨1, 1⟩,
    max_size := fun _ => ⟨1, 1⟩ }

/-- Witness for C7: the delegate reached by a transfer request on the
default state holds no manager. -/
theorem c7_delegate_no_manager_witness :
    (transfer_layout_ownership (defaultState wDemo true []) c7env 9).2.layout_manager = none :=
  c7_delegate_no_manager
    (Reach.transferStep 9 rfl (Reach.start wDemo true [])) rfl

end WxCont
